import Mathlib

/-!
# Verification of jax-cfd core operators

Shallow embedding of two subsystems of the jax-cfd repository:

* `jax_cfd/spectral/utils.py`: `circular_filter_2d`, `vorticity_to_velocity`
  and `filter_step` (present in the source tree, embedded directly).
* `jax_cfd/base/resize.py`: `downsample_staggered_velocity_component` and
  `downsample_staggered_velocity`.  Only the test file `resize_test.py` is in
  the source tree, so these are modelled from the specification, with the
  test input/output pairs of `resize_test.py` as the anchoring convention of
  record.

Two-dimensional arrays are embedded as functions `ℕ → ℕ → ℝ` (real arrays)
and `ℕ → ℕ → ℂ` (complex rfft-layout arrays); all array operations in the
embedded code act pointwise, except the reductions, which are written as
explicit finite sums.  Machine floating point is modelled by exact reals.
-/

noncomputable section

/-- A real-valued 2-D array, viewed as a function of its two indices. -/
abbrev RArray : Type := ℕ → ℕ → ℝ

/-- A complex-valued 2-D array (rfft layout), viewed as a function of its
two indices. -/
abbrev CArray : Type := ℕ → ℕ → ℂ

/-- A uniform rectangular 2-D grid: per-axis shapes and per-axis physical
domain lengths (upper bound minus lower bound).  The grid container itself is
an external collaborator of the shown code; only the fields the operators
consume are kept. -/
structure Grid where
  shape0 : ℕ
  shape1 : ℕ
  len0 : ℝ
  len1 : ℝ

/-- Modelled from the spec: the integer frequencies of a length-`n` fft axis
(numpy `fftfreq(n) * n`): `0, 1, ..., ⌈n/2⌉-1, -⌊n/2⌋, ..., -1`. -/
def fftfreq_int (n : ℕ) (i : ℕ) : ℤ :=
  if i < (n + 1) / 2 then (i : ℤ) else (i : ℤ) - (n : ℤ)

/-- Modelled from the spec: first component `kx` of `grid.rfft_mesh()` —
fft frequencies of axis 0 in cycles per unit length (`fftfreq(n0, d=step0)`,
with `n0 * step0 = len0`), broadcast over the rfft columns. -/
def Grid.rfft_kx (g : Grid) : RArray :=
  fun i _ => (fftfreq_int g.shape0 i : ℝ) / g.len0

/-- Modelled from the spec: second component `ky` of `grid.rfft_mesh()` —
rfft frequencies of axis 1 in cycles per unit length (`rfftfreq(n1, d=step1)`
with `n1 * step1 = len1`: the value at column `j` is `j / len1`,
for `j = 0, ..., n1/2`), broadcast over the rows. -/
def Grid.rfft_ky (g : Grid) : RArray :=
  fun _ j => (j : ℝ) / g.len1

/-- Embeds `circular_filter_2d` from `jax_cfd/spectral/utils.py`:
`max_k = ky[-1, -1]`; `circle = sqrt(kx**2 + ky**2)`; `cphi = 0.65 * max_k`;
`filter_ = exp(-23.6 * (circle - cphi)**4)` replaced by `1` wherever
`circle <= cphi`.  The rfft mesh has `shape0` rows and `shape1 / 2 + 1`
columns, so `ky[-1, -1] = ky (shape0 - 1) (shape1 / 2)`. -/
def circular_filter_2d (grid : Grid) : RArray :=
  let kx := grid.rfft_kx
  let ky := grid.rfft_ky
  let max_k := ky (grid.shape0 - 1) (grid.shape1 / 2)
  fun i j =>
    let circle := Real.sqrt (kx i j ^ 2 + ky i j ^ 2)
    let cphi := 0.65 * max_k
    let filterfac : ℝ := 23.6
    if circle ≤ cphi then 1 else Real.exp (-filterfac * (circle - cphi) ^ 4)

/-- Embeds `two_pi_i = 2 * jnp.pi * 1j` from `vorticity_to_velocity`. -/
def two_pi_i : ℂ := 2 * (Real.pi : ℂ) * Complex.I

/-- The Fourier-space Laplacian built inside `vorticity_to_velocity`, with an
arbitrary placeholder `c` at index `(0, 0)`:
`laplace = two_pi_i ** 2 * (abs(kx)**2 + abs(ky)**2)` followed by
`laplace.at[0, 0].set(c)`. -/
def laplace_with (c : ℂ) (kx ky : RArray) : CArray :=
  fun i j =>
    if i = 0 ∧ j = 0 then c
    else two_pi_i ^ 2 * ((|kx i j| ^ 2 + |ky i j| ^ 2 : ℝ) : ℂ)

/-- Embeds the `laplace` array of `vorticity_to_velocity` from
`jax_cfd/spectral/utils.py`: the source sets the `(0, 0)` entry to `1`. -/
def laplace (kx ky : RArray) : CArray := laplace_with 1 kx ky

/-- Embeds the closure returned by `vorticity_to_velocity` from
`jax_cfd/spectral/utils.py`, parameterised by the grid's rfft mesh
`(kx, ky)` that the source obtains from `grid.rfft_mesh()`:
`psi_hat = -1 / laplace * vorticity_hat`;
`vxhat = two_pi_i * ky * psi_hat`; `vyhat = -two_pi_i * kx * psi_hat`. -/
def vorticity_to_velocity (kx ky : RArray) : CArray → CArray × CArray :=
  fun vorticity_hat =>
    let psi_hat : CArray := fun i j => -1 / laplace kx ky i j * vorticity_hat i j
    (fun i j => two_pi_i * (ky i j : ℂ) * psi_hat i j,
     fun i j => -two_pi_i * (kx i j : ℂ) * psi_hat i j)

/-- Embeds `filter_step` from `jax_cfd/spectral/utils.py`: the returned
`new_step_fn` maps `state` to `filter_ * step_fn(state)` (array product,
which is pointwise). -/
def filter_step (step_fn : CArray → CArray) (filter_ : CArray) : CArray → CArray :=
  fun state i j => filter_ i j * step_fn state i j

/-! ## Downsampling operator (modelled from the spec) -/

/-- Modelled from the spec: face-anchored reduction along axis 0 — along the
component's own (staggered) direction the coarse sample `i` is the fine face
sample at index `factor * i + (factor - 1)`, the anchoring fixed by the test
pairs of `resize_test.py`. -/
def downsample_axis0_face (factor : ℕ) (u : RArray) : RArray :=
  fun i j => u (factor * i + (factor - 1)) j

/-- Modelled from the spec: plain block mean along axis 0 — coarse sample `i`
is the mean of the `factor` fine samples starting at `factor * i`. -/
def downsample_axis0_mean (factor : ℕ) (u : RArray) : RArray :=
  fun i j => (∑ b ∈ Finset.range factor, u (factor * i + b) j) / (factor : ℝ)

/-- Modelled from the spec: face-anchored reduction along axis 1. -/
def downsample_axis1_face (factor : ℕ) (u : RArray) : RArray :=
  fun i j => u i (factor * j + (factor - 1))

/-- Modelled from the spec: plain block mean along axis 1. -/
def downsample_axis1_mean (factor : ℕ) (u : RArray) : RArray :=
  fun i j => (∑ b ∈ Finset.range factor, u i (factor * j + b)) / (factor : ℝ)

/-- Modelled from the spec: `downsample_staggered_velocity_component(u,
direction, factor)` (the file `jax_cfd/base/resize.py` is absent from the
source tree) — averages over non-overlapping windows of size `factor` along
every axis except `direction`, and along `direction` takes the face-anchored
value; the anchoring is the one fixed by the input/output pairs of
`resize_test.py`, which the spec designates as the convention of record. -/
def downsample_staggered_velocity_component (u : RArray) (direction factor : ℕ) : RArray :=
  if direction = 0 then downsample_axis1_mean factor (downsample_axis0_face factor u)
  else downsample_axis0_mean factor (downsample_axis1_face factor u)

/-- Modelled from the spec: a velocity component is either a raw array or an
array tagged with a staggering offset (the tagged union the spec prescribes
for the `raw array / grids.AlignedArray` polymorphism). -/
inductive Component where
  | plain (data : RArray)
  | aligned (data : RArray) (offset : ℝ × ℝ)

/-- The underlying data array of a velocity component. -/
def Component.data : Component → RArray
  | .plain d => d
  | .aligned d _ => d

/-- The staggering offset of a component: `none` for a raw array. -/
def Component.offsetTag : Component → Option (ℝ × ℝ)
  | .plain _ => none
  | .aligned _ off => some off

/-- Applies a numeric transformation to a component, preserving its tag. -/
def Component.map (g : RArray → RArray) : Component → Component
  | .plain d => .plain (g d)
  | .aligned d off => .aligned (g d) off

/-- Modelled from the spec: the numeric downsampling applied to the velocity
component whose own direction is axis 0 — face-anchored along axis 0 with the
axis-0 factor, block mean along axis 1 with the axis-1 factor. -/
def downsample_u0 (f0 f1 : ℕ) (u : RArray) : RArray :=
  downsample_axis1_mean f1 (downsample_axis0_face f0 u)

/-- Modelled from the spec: the numeric downsampling applied to the velocity
component whose own direction is axis 1. -/
def downsample_u1 (f0 f1 : ℕ) (u : RArray) : RArray :=
  downsample_axis0_mean f0 (downsample_axis1_face f1 u)

/-- Modelled from the spec: `downsample_staggered_velocity(source_grid,
destination_grid, velocity)` (the file `jax_cfd/base/resize.py` is absent
from the source tree) — per-axis factors
`factor = source_grid.shape[axis] / destination_grid.shape[axis]` must be
exact positive integers (otherwise a ShapeError, modelled as `none`); each
component is downsampled with the face-anchored rule on its own axis and
plain block means on the other axis, offset tags passed through unchanged. -/
def downsample_staggered_velocity (source_grid destination_grid : Grid)
    (velocity : Component × Component) : Option (Component × Component) :=
  if destination_grid.shape0 ∣ source_grid.shape0 ∧
      destination_grid.shape1 ∣ source_grid.shape1 ∧
      0 < source_grid.shape0 / destination_grid.shape0 ∧
      0 < source_grid.shape1 / destination_grid.shape1 then
    let f0 := source_grid.shape0 / destination_grid.shape0
    let f1 := source_grid.shape1 / destination_grid.shape1
    some (velocity.1.map (downsample_u0 f0 f1), velocity.2.map (downsample_u1 f0 f1))
  else none

/-- The 4×4 test input of `resize_test.py`: row-major values `0..15`, i.e.
entry `(i, j)` is `4 * i + j` on the used index range. -/
def u4 : RArray := fun i j => ((4 * i + j : ℕ) : ℝ)

/-! ## Theorems -/

/-- C2: for every 2-D grid (any rfft mesh `(kx, ky)`) and every vorticity
field, the velocity pair returned by `vorticity_to_velocity` satisfies
`kx * vx_hat + ky * vy_hat = 0` at every mode: the returned velocity is
divergence-free in Fourier space. -/
theorem vorticity_to_velocity_divergence_free (kx ky : RArray)
    (vorticity_hat : CArray) (i j : ℕ) :
    (kx i j : ℂ) * (vorticity_to_velocity kx ky vorticity_hat).1 i j +
      (ky i j : ℂ) * (vorticity_to_velocity kx ky vorticity_hat).2 i j = 0 := by
  simp only [vorticity_to_velocity]
  ring

/-- C6: the function returned by `filter_step(step_fn, filter_)` applied to
any state equals the pointwise product of `filter_` with `step_fn(state)`. -/
theorem filter_step_pointwise (step_fn : CArray → CArray) (filter_ : CArray)
    (state : CArray) (i j : ℕ) :
    filter_step step_fn filter_ state i j = filter_ i j * step_fn state i j := rfl

/-- C7: wrapping an already-wrapped step function with the same filter
composes as squaring the filter, pointwise:
`filter_step(filter_step(step_fn, filter_), filter_)(state) =
filter_^2 * step_fn(state)`; and a call of the wrapped function is a pure
function of its state (each call recomputes `filter_ * step_fn(state)`
with no retained history). -/
theorem filter_step_compose_square (step_fn : CArray → CArray) (filter_ : CArray)
    (state : CArray) (i j : ℕ) :
    filter_step (filter_step step_fn filter_) filter_ state i j =
      filter_ i j ^ 2 * step_fn state i j ∧
    filter_step step_fn filter_ state i j = filter_ i j * step_fn state i j := by
  constructor
  · simp only [filter_step]
    ring
  · rfl

/-- C1: on the 4×4 test input `u = [[0,1,2,3],[4,5,6,7],[8,9,10,11],
[12,13,14,15]]`, downsampling by factor 2 gives `[[4.5, 6.5],[12.5, 14.5]]`
for `direction = 0` and `[[3, 5],[11, 13]]` for `direction = 1`: these two
input/output pairs fix the face-anchoring convention along the staggered
direction. -/
theorem downsample_component_concrete_cases :
    downsample_staggered_velocity_component u4 0 2 0 0 = 4.5 ∧
    downsample_staggered_velocity_component u4 0 2 0 1 = 6.5 ∧
    downsample_staggered_velocity_component u4 0 2 1 0 = 12.5 ∧
    downsample_staggered_velocity_component u4 0 2 1 1 = 14.5 ∧
    downsample_staggered_velocity_component u4 1 2 0 0 = 3 ∧
    downsample_staggered_velocity_component u4 1 2 0 1 = 5 ∧
    downsample_staggered_velocity_component u4 1 2 1 0 = 11 ∧
    downsample_staggered_velocity_component u4 1 2 1 1 = 13 := by
  norm_num [downsample_staggered_velocity_component, downsample_axis0_face,
    downsample_axis0_mean, downsample_axis1_face, downsample_axis1_mean, u4,
    Finset.sum_range_succ]

/-- C9: every entry of the array returned by `circular_filter_2d` lies in the
half-open interval `(0, 1]`. -/
theorem circular_filter_2d_range (grid : Grid) (i j : ℕ) :
    0 < circular_filter_2d grid i j ∧ circular_filter_2d grid i j ≤ 1 := by
  simp only [circular_filter_2d]
  split
  · exact ⟨one_pos, le_refl 1⟩
  · refine ⟨Real.exp_pos _, Real.exp_le_one_iff.mpr ?_⟩
    have h4 : (0 : ℝ) ≤ (Real.sqrt (grid.rfft_kx i j ^ 2 + grid.rfft_ky i j ^ 2) -
        0.65 * grid.rfft_ky (grid.shape0 - 1) (grid.shape1 / 2)) ^ 4 := by positivity
    linarith

/-- C5: after the `(0, 0)` entry is overridden to `1`, the `laplace` array of
`vorticity_to_velocity` is nonzero at every index, provided the rfft mesh
`(kx, ky)` vanishes simultaneously only at index `(0, 0)`; hence the division
`-vorticity_hat / laplace` never divides by zero. -/
theorem laplace_never_zero (kx ky : RArray)
    (hmesh : ∀ i j, kx i j = 0 ∧ ky i j = 0 → i = 0 ∧ j = 0) (i j : ℕ) :
    laplace kx ky i j ≠ 0 := by
  unfold laplace laplace_with
  by_cases h : i = 0 ∧ j = 0
  · simp [h]
  · rw [if_neg h]
    apply mul_ne_zero
    · apply pow_ne_zero
      unfold two_pi_i
      exact mul_ne_zero (mul_ne_zero two_ne_zero
        (Complex.ofReal_ne_zero.mpr Real.pi_ne_zero)) Complex.I_ne_zero
    · rw [Ne, Complex.ofReal_eq_zero, sq_abs, sq_abs]
      intro hsum
      rcases (add_eq_zero_iff_of_nonneg (sq_nonneg (kx i j)) (sq_nonneg (ky i j))).mp hsum
        with ⟨hx, hy⟩
      exact h (hmesh i j ⟨pow_eq_zero_iff two_ne_zero |>.mp hx,
        pow_eq_zero_iff two_ne_zero |>.mp hy⟩)

/-- Witness for C5: the mesh `kx i j = i`, `ky i j = j` vanishes jointly only
at `(0, 0)`, and there the Laplacian with the overridden zero entry is
nonzero at the concrete index `(1, 2)`. -/
theorem laplace_never_zero_witness :
    laplace (fun i _ => (i : ℝ)) (fun _ j => (j : ℝ)) 1 2 ≠ 0 :=
  laplace_never_zero (fun i _ => (i : ℝ)) (fun _ j => (j : ℝ))
    (fun _ _ h => ⟨Nat.cast_eq_zero.mp h.1, Nat.cast_eq_zero.mp h.2⟩) 1 2

/-- C10: whenever the rfft mesh has `kx = ky = 0` at index `(0, 0)`, both
velocity components returned by `vorticity_to_velocity` are exactly zero at
index `(0, 0)`, for every input vorticity; and the same holds for the
stream-function formula with an arbitrary placeholder `c` substituted into
the Laplacian at `(0, 0)`, because each component is multiplied by the
wavenumber that vanishes there. -/
theorem vorticity_to_velocity_zero_mode (kx ky : RArray) (vorticity_hat : CArray)
    (c : ℂ) (hkx : kx 0 0 = 0) (hky : ky 0 0 = 0) :
    (vorticity_to_velocity kx ky vorticity_hat).1 0 0 = 0 ∧
    (vorticity_to_velocity kx ky vorticity_hat).2 0 0 = 0 ∧
    two_pi_i * (ky 0 0 : ℂ) * (-1 / laplace_with c kx ky 0 0 * vorticity_hat 0 0) = 0 ∧
    -two_pi_i * (kx 0 0 : ℂ) * (-1 / laplace_with c kx ky 0 0 * vorticity_hat 0 0) = 0 := by
  simp [vorticity_to_velocity, hkx, hky]

/-- Witness for C10: at the concrete mesh `kx i j = i`, `ky i j = j` (which
is `(0, 0)` at index `(0, 0)`), the constant-one vorticity, and placeholder
`2`, both returned velocity components vanish at the zero mode. -/
theorem vorticity_to_velocity_zero_mode_witness :
    (vorticity_to_velocity (fun i _ => (i : ℝ)) (fun _ j => (j : ℝ)) (fun _ _ => 1)).1 0 0 = 0 ∧
    (vorticity_to_velocity (fun i _ => (i : ℝ)) (fun _ j => (j : ℝ)) (fun _ _ => 1)).2 0 0 = 0 := by
  have h := vorticity_to_velocity_zero_mode (fun i _ => (i : ℝ)) (fun _ j => (j : ℝ))
    (fun _ _ => 1) 2 (by simp) (by simp)
  exact ⟨h.1, h.2.1⟩

/-- C3: `vorticity_to_velocity` builds the Laplacian
`(2*pi*i)^2 * (|kx|^2 + |ky|^2)` with the entry at index `(0, 0)` overridden
to `1`, and the returned closure maps `vorticity_hat` to `(vx_hat, vy_hat)`
with `psi_hat = -vorticity_hat / laplace`, `vx_hat = 2*pi*i * ky * psi_hat`
and `vy_hat = -2*pi*i * kx * psi_hat`. -/
theorem vorticity_to_velocity_formulas (kx ky : RArray) :
    laplace kx ky 0 0 = 1 ∧
    (∀ i j, ¬(i = 0 ∧ j = 0) →
      laplace kx ky i j = two_pi_i ^ 2 * ((|kx i j| ^ 2 + |ky i j| ^ 2 : ℝ) : ℂ)) ∧
    (∀ vorticity_hat : CArray, ∀ i j,
      (vorticity_to_velocity kx ky vorticity_hat).1 i j =
        two_pi_i * (ky i j : ℂ) * (-vorticity_hat i j / laplace kx ky i j) ∧
      (vorticity_to_velocity kx ky vorticity_hat).2 i j =
        -two_pi_i * (kx i j : ℂ) * (-vorticity_hat i j / laplace kx ky i j)) := by
  refine ⟨by simp [laplace, laplace_with], fun i j h => by simp [laplace, laplace_with, h], ?_⟩
  intro vorticity_hat i j
  constructor <;> (simp only [vorticity_to_velocity]; ring)

/-- Witness for C3: at the concrete mesh `kx i j = i`, `ky i j = j`, the
Laplacian entry at `(0, 0)` is the placeholder `1` and the entry at `(1, 0)`
follows the stated formula. -/
theorem vorticity_to_velocity_formulas_witness :
    laplace (fun i _ => (i : ℝ)) (fun _ j => (j : ℝ)) 0 0 = 1 ∧
    laplace (fun i _ => (i : ℝ)) (fun _ j => (j : ℝ)) 1 0 =
      two_pi_i ^ 2 * ((|(1 : ℝ)| ^ 2 + |(0 : ℝ)| ^ 2 : ℝ) : ℂ) := by
  have h := vorticity_to_velocity_formulas (fun i _ => (i : ℝ)) (fun _ j => (j : ℝ))
  refine ⟨h.1, ?_⟩
  simpa using h.2.1 1 0 (by decide)

/-- Small helper: `Component.map` leaves the offset tag unchanged. -/
theorem Component.offsetTag_map (g : RArray → RArray) (c : Component) :
    (c.map g).offsetTag = c.offsetTag := by
  cases c <;> rfl

/-- Small helper: `Component.map` applies `g` to the data, whatever the tag. -/
theorem Component.data_map (g : RArray → RArray) (c : Component) :
    (c.map g).data = g c.data := by
  cases c <;> rfl

/-- C8: whenever `downsample_staggered_velocity` succeeds, each output
component carries exactly the input component's tag — raw arrays stay raw,
offset-tagged components keep their offset tuples unchanged — and its numeric
data is the tag-independent downsampling of the input data (so tagged and raw
inputs produce identical numeric values). -/
theorem downsample_velocity_preserves_tags (source_grid destination_grid : Grid)
    (velocity result : Component × Component)
    (h : downsample_staggered_velocity source_grid destination_grid velocity = some result) :
    result.1.offsetTag = velocity.1.offsetTag ∧
    result.2.offsetTag = velocity.2.offsetTag ∧
    result.1.data = downsample_u0 (source_grid.shape0 / destination_grid.shape0)
      (source_grid.shape1 / destination_grid.shape1) velocity.1.data ∧
    result.2.data = downsample_u1 (source_grid.shape0 / destination_grid.shape0)
      (source_grid.shape1 / destination_grid.shape1) velocity.2.data := by
  simp only [downsample_staggered_velocity] at h
  split_ifs at h with hc
  injection h with h
  subst h
  exact ⟨Component.offsetTag_map _ _, Component.offsetTag_map _ _,
    Component.data_map _ _, Component.data_map _ _⟩

/-- Witness for C8: the 4×4 → 2×2 grid transition of `resize_test.py` on the
offset-tagged pair `(AlignedArray(u4, (1,0)), AlignedArray(u4, (0,1)))`
succeeds, keeps both offsets, and produces the raw-array numerics. -/
theorem downsample_velocity_preserves_tags_witness :
    Component.offsetTag (Component.aligned (downsample_u0 2 2 u4) (1, 0)) = some (1, 0) ∧
    Component.offsetTag (Component.aligned (downsample_u1 2 2 u4) (0, 1)) = some (0, 1) ∧
    Component.data (Component.aligned (downsample_u0 2 2 u4) (1, 0)) = downsample_u0 2 2 u4 ∧
    Component.data (Component.aligned (downsample_u1 2 2 u4) (0, 1)) = downsample_u1 2 2 u4 := by
  have h := downsample_velocity_preserves_tags ⟨4, 4, 1, 1⟩ ⟨2, 2, 1, 1⟩
    (Component.aligned u4 (1, 0), Component.aligned u4 (0, 1))
    (Component.aligned (downsample_u0 2 2 u4) (1, 0),
      Component.aligned (downsample_u1 2 2 u4) (0, 1))
    (by norm_num [downsample_staggered_velocity, Component.map])
  exact ⟨h.1, h.2.1, h.2.2.1, h.2.2.2⟩

/-- C4: `circular_filter_2d` uses the cutoff `cphi = 0.65 * max_k`, where
`max_k = ky[-1, -1]` is the maximum `ky` value of the rfft mesh (the Nyquist
wavenumber of the second axis), and every entry equals `1` where
`circle = sqrt(kx^2 + ky^2) <= cphi` and `exp(-23.6 * (circle - cphi)^4)`
where `circle > cphi`. -/
theorem circular_filter_2d_formula (grid : Grid) (hlen : 0 < grid.len1) :
    (∀ i j, i < grid.shape0 → j ≤ grid.shape1 / 2 →
      grid.rfft_ky i j ≤ grid.rfft_ky (grid.shape0 - 1) (grid.shape1 / 2)) ∧
    (∀ i j,
      circular_filter_2d grid i j =
        if Real.sqrt (grid.rfft_kx i j ^ 2 + grid.rfft_ky i j ^ 2) ≤
            0.65 * grid.rfft_ky (grid.shape0 - 1) (grid.shape1 / 2) then 1
        else Real.exp (-(23.6 : ℝ) *
          (Real.sqrt (grid.rfft_kx i j ^ 2 + grid.rfft_ky i j ^ 2) -
            0.65 * grid.rfft_ky (grid.shape0 - 1) (grid.shape1 / 2)) ^ 4)) := by
  constructor
  · intro i j hi hj
    simp only [Grid.rfft_ky]
    gcongr
  · intro i j
    rfl

/-- Witness for C4: on the 4×4 unit-square grid the zero mode has
`circle = 0 <= cphi = 1.3`, so the filter value there is exactly `1`. -/
theorem circular_filter_2d_formula_witness :
    circular_filter_2d ⟨4, 4, 1, 1⟩ 0 0 = 1 := by
  have h := circular_filter_2d_formula ⟨4, 4, 1, 1⟩ one_pos
  rw [h.2 0 0]
  norm_num [Grid.rfft_kx, Grid.rfft_ky, fftfreq_int, Real.sqrt_zero]
